import Mathlib

/-!
Shallow embedding of the DFIR Artifact Explorer's faceted catalog query
engine (`components/ArtifactExplorer.tsx`) and proofs about it.

The record data model mirrors the TypeScript types; the session state
mirrors the React state hooks (`query`, `platforms`, `tactics`, `tools`,
`selected`) plus the immutable `SEED` collection.  Strings are Lean
`String`s; the JavaScript operations `trim`, `toLowerCase` and
`includes` are embedded as explicit functions on `List Char`
(locale-independent ASCII case folding, as the engine performs no
diacritic normalization).
-/

namespace ArtifactExplorer

structure Location where
  path : String
  scope : Option String := none
  notes : Option String := none
deriving DecidableEq

structure TimestampField where
  name : String
  source : Option String := none
  tz_behavior : Option String := none
  precision : Option String := none
  notes : Option String := none
deriving DecidableEq

structure ParserRef where
  tool_name : String
  command_example : Option String := none
  output_fields : Option (List (String × String)) := none
  links : Option (List String) := none
deriving DecidableEq

structure EventIdGroup where
  ids : List String
  source : String
  description : String
deriving DecidableEq

structure CollectionSteps where
  category : String
  steps : List String
deriving DecidableEq

structure Reference where
  title : String
  url : String
deriving DecidableEq

/-- The `Artifact` record type.  `platform` is kept as a raw string (the
TypeScript `Platform` union is a union of string literals); membership in
the enumeration is checked by `validPlatform`. -/
structure Artifact where
  id : String
  name : String
  slug : String
  platform : String
  tactic_tags : Option (List String) := none
  artifact_class : Option String := none
  summary : String
  description : Option String := none
  locations : Option (List Location) := none
  timestamps : Option (List TimestampField) := none
  parsers : Option (List ParserRef) := none
  collection_methods : Option (List String) := none
  validation : Option (List String) := none
  known_pitfalls : Option (List String) := none
  references : Option (List Reference) := none
  event_ids : Option (List EventIdGroup) := none
  collection_steps : Option (List CollectionSteps) := none
  gui_log_collection_steps : Option (List String) := none
  due_diligence_checks : Option (List String) := none
  additional_checks : Option (List String) := none
deriving DecidableEq

/-- The platform enumeration, in the order the source lists it. -/
def platformEnum : List String := ["windows", "linux", "m365", "gws"]

/-- The session state: the immutable `SEED` collection plus the five
React state hooks of `ArtifactExplorer`. -/
structure State where
  seed : List Artifact
  query : String
  platforms : List String
  tactics : List String
  tools : List String
  selected : Option Artifact
deriving DecidableEq

/-- ASCII lowercasing of a string's characters, embedding
`String.prototype.toLowerCase` on the inputs the engine handles. -/
def lc (s : String) : List Char := s.data.map Char.toLower

/-- Strip leading and trailing whitespace, embedding
`String.prototype.trim`. -/
def trimChars (l : List Char) : List Char :=
  ((l.dropWhile Char.isWhitespace).reverse.dropWhile Char.isWhitespace).reverse

/-- `query.trim().toLowerCase()` — the normalized query the filter
compares against (line 55 of the component). -/
def queryKey (s : String) : List Char := (trimChars s.data).map Char.toLower

/-- The per-record match predicate of the `filtered` memo (lines 56–71):
platform gate, tactic gate, tool gate and text gate, conjoined.  Note
that on the event-id branch the source lowercases the query but not the
id (`g.ids.some(id => id.includes(q))`). -/
def matchesRecord (st : State) (a : Artifact) : Bool :=
  let q := queryKey st.query
  st.platforms.contains a.platform &&
  (st.tactics.length == 0 || (a.tactic_tags.getD []).any (fun t => st.tactics.contains t)) &&
  (st.tools.length == 0 || (a.parsers.getD []).any (fun p => st.tools.contains p.tool_name)) &&
  (q.isEmpty ||
    decide (q <:+: lc a.name) ||
    decide (q <:+: lc a.summary) ||
    decide (q <:+: lc (a.description.getD (""))) ||
    (a.locations.getD []).any (fun l => decide (q <:+: lc l.path)) ||
    (a.event_ids.getD []).any (fun g =>
      decide (q <:+: lc g.source) ||
      decide (q <:+: lc g.description) ||
      g.ids.any (fun i => decide (q <:+: i.data))))

/-- `filtered` — the Query Evaluator: `SEED.filter(...)` (lines 54–72). -/
def filtered (st : State) : List Artifact :=
  st.seed.filter (matchesRecord st)

/-- `uniq` keeping first occurrences, embedding
`Array.from(new Set(arr))`; `seen` accumulates values already kept. -/
def uniqAux (seen : List String) : List String → List String
  | [] => []
  | x :: xs => if seen.contains x then uniqAux seen xs else x :: uniqAux (x :: seen) xs

/-- `uniq` from the source (line 32). -/
def uniq (l : List String) : List String := uniqAux [] l

/-- `allTactics` (line 51): deduplicate all `tactic_tags` and sort
ascending.  JavaScript's default `.sort()` on the deduplicated strings is
embedded as insertion sort by `≤`. -/
def allTactics (st : State) : List String :=
  List.insertionSort (· ≤ ·) (uniq (st.seed.flatMap (fun a => a.tactic_tags.getD [])))

/-- `allTools` (line 52): deduplicate all `parsers[].tool_name` and sort
ascending. -/
def allTools (st : State) : List String :=
  List.insertionSort (· ≤ ·)
    (uniq (st.seed.flatMap (fun a => (a.parsers.getD []).map (fun p => p.tool_name))))

/-- The shared toggle shape of `togglePlatform` / `toggleTactic` /
`toggleTool` (lines 74–76): remove if present, append if absent. -/
def toggle (l : List String) (x : String) : List String :=
  if l.contains x then l.filter (fun y => y != x) else l ++ [x]

/-- `togglePlatform` (line 74). -/
def togglePlatform (st : State) (p : String) : State :=
  { st with platforms := toggle st.platforms p }

/-- `toggleTactic` (line 75). -/
def toggleTactic (st : State) (t : String) : State :=
  { st with tactics := toggle st.tactics t }

/-- `toggleTool` (line 76). -/
def toggleTool (st : State) (t : String) : State :=
  { st with tools := toggle st.tools t }

/-- `clearAll` (line 77): resets query, platforms, tactics and tools.
The source does not touch `selected` here. -/
def clearAll (st : State) : State :=
  { st with query := "", platforms := platformEnum, tactics := [], tools := [] }

/-- `setSelected` (lines 49/137/167/180): the detail-panel selection. -/
def setSelected (st : State) (a : Option Artifact) : State := { st with selected := a }

/-- `current()` of the Selection/Detail Resolver: the open record. -/
def current (st : State) : Option Artifact := st.selected

/-- `closeRecord` — pressing Escape / the Close button: `setSelected(null)`. -/
def closeRecord (st : State) : State := { st with selected := none }

/-! ### Spec-side gate predicates (§4.3 of the spec, as the claims word them)

These follow the claims' words, to be compared against `matchesRecord`:
four independent gates, conjoined.  `textGateSpec` is the claimed text
gate, lowercasing both the query and every candidate field — including
the event-id strings; `textGateCode` differs from it only where the
counterexample forces: the id strings are matched literally, without
lowercasing the id. -/

/-- Gate 1: the record's platform is a member of `activePlatforms`. -/
def platformGate (st : State) (r : Artifact) : Prop := r.platform ∈ st.platforms

/-- Gate 2: `activeTactics` is empty, or some tactic tag of the record
(unset treated as empty) is a member of `activeTactics`. -/
def tacticGate (st : State) (r : Artifact) : Prop :=
  st.tactics = [] ∨ ∃ t ∈ r.tactic_tags.getD [], t ∈ st.tactics

/-- Gate 3: `activeTools` is empty, or some `parsers[].tool_name` of the
record (unset treated as empty) is a member of `activeTools`. -/
def toolGate (st : State) (r : Artifact) : Prop :=
  st.tools = [] ∨ ∃ p ∈ r.parsers.getD [], p.tool_name ∈ st.tools

/-- Gate 4 as the claims state it: the trimmed query is empty, or its
lowercased form is a substring of one of name, summary, description
(unset as empty), some location path, or some event-id group's source,
description, or id string — every candidate lowercased, the ids
included. -/
def textGateSpec (st : State) (r : Artifact) : Prop :=
  trimChars st.query.data = [] ∨
  queryKey st.query <:+: lc r.name ∨
  queryKey st.query <:+: lc r.summary ∨
  queryKey st.query <:+: lc (r.description.getD ("")) ∨
  (∃ l ∈ r.locations.getD [], queryKey st.query <:+: lc l.path) ∨
  (∃ g ∈ r.event_ids.getD [],
    queryKey st.query <:+: lc g.source ∨
    queryKey st.query <:+: lc g.description ∨
    ∃ i ∈ g.ids, queryKey st.query <:+: lc i)

/-- Gate 4 as the source implements it: identical to `textGateSpec`
except that an event-id string is matched literally (the lowercased
query must occur in the raw id). -/
def textGateCode (st : State) (r : Artifact) : Prop :=
  trimChars st.query.data = [] ∨
  queryKey st.query <:+: lc r.name ∨
  queryKey st.query <:+: lc r.summary ∨
  queryKey st.query <:+: lc (r.description.getD ("")) ∨
  (∃ l ∈ r.locations.getD [], queryKey st.query <:+: lc l.path) ∨
  (∃ g ∈ r.event_ids.getD [],
    queryKey st.query <:+: lc g.source ∨
    queryKey st.query <:+: lc g.description ∨
    ∃ i ∈ g.ids, queryKey st.query <:+: i.data)

instance (st : State) (r : Artifact) : Decidable (platformGate st r) := by
  unfold platformGate; infer_instance

instance (st : State) (r : Artifact) : Decidable (tacticGate st r) := by
  unfold tacticGate; infer_instance

instance (st : State) (r : Artifact) : Decidable (toolGate st r) := by
  unfold toolGate; infer_instance

instance (st : State) (r : Artifact) : Decidable (textGateSpec st r) := by
  unfold textGateSpec; infer_instance

instance (st : State) (r : Artifact) : Decidable (textGateCode st r) := by
  unfold textGateCode; infer_instance

/-! ### Record Store `load` and Selection/Detail Resolver `open` (§4.1, §4.4)

The source casts the embedded seed JSON directly
(`const SEED = seed as unknown as Artifact[]`, line 44) and opens detail
panels only from records clicked in the rendered list; the validating
loader and the id-based `open` of the spec have no implementation under
`src/`, so they are modelled from the spec here. -/

/-- Load-time validation failure (malformed or duplicate record). -/
inductive InvalidRecordError
  | mk
deriving DecidableEq

/-- Detail-open requested for an unknown id. -/
structure NotFoundError where
  id : String
deriving DecidableEq

/-- Membership of a platform string in the §3 enumeration. -/
def validPlatform (p : String) : Bool := platformEnum.contains p

/-- Well-formedness of one record per §4.1: non-empty `id`, `name`,
`slug`, `summary`, and a platform in the enumeration. -/
def recordOk (a : Artifact) : Bool :=
  (a.id != "") && (a.name != "") && (a.slug != "") && (a.summary != "") &&
    validPlatform a.platform

/-- Modelled from the spec: §4.1's `load` validation loop.  `seen` holds
the ids already loaded; a record whose id collides with `seen`, or that
fails `recordOk`, aborts the whole batch with `InvalidRecordError`. -/
def loadAux (seen : List String) : List Artifact → Except InvalidRecordError (List Artifact)
  | [] => Except.ok []
  | a :: rest =>
    if recordOk a && !(seen.contains a.id) then
      match loadAux (a.id :: seen) rest with
      | Except.ok out => Except.ok (a :: out)
      | Except.error e => Except.error e
    else Except.error InvalidRecordError.mk

/-- Modelled from the spec: §4.1
`load(records: sequence<ArtifactRecord>) -> Store`.  On success the
store holds exactly the given records in order (`all()` is the returned
list); any invalid or duplicate record rejects the whole batch. -/
def load (records : List Artifact) : Except InvalidRecordError (List Artifact) :=
  loadAux [] records

/-- Modelled from the spec: §4.4
`open(store, id) -> Result<ArtifactRecord, NotFoundError>`.  Returns the
updated session state together with the error, if any; on an unknown id
the state — in particular `openRecordId` — is returned unchanged. -/
def openRecord (st : State) (i : String) : State × Option NotFoundError :=
  match st.seed.find? (fun a => a.id == i) with
  | some a => ({ st with selected := some a }, none)
  | none => (st, some { id := i })

/-! ### Concrete records and states used to instantiate the theorems -/

/-- A record whose only text match for the query ab would be the
event-id string AB. -/
def rCase : Artifact :=
  { id := "r1", name := "Security Log", slug := "sec-log", platform := "windows",
    summary := "logon records",
    event_ids := some [{ ids := ["AB"], source := "Src", description := "Desc" }] }

/-- Session state with query ab over `rCase` and no facet restrictions. -/
def stCase : State :=
  { seed := [rCase], query := "ab", platforms := platformEnum,
    tactics := [], tools := [], selected := none }

/-- Scenario A record R1 of the spec. -/
def r1 : Artifact :=
  { id := "w1", name := "SAM hive", slug := "sam", platform := "windows",
    tactic_tags := some ["persistence"], summary := "acct db",
    locations := some [{ path := "C:\\Windows\\System32\\config\\SAM" }] }

/-- Scenario A record R2 of the spec. -/
def r2 : Artifact :=
  { id := "l1", name := "auth log", slug := "auth", platform := "linux",
    tactic_tags := some ["execution"], summary := "auth events",
    locations := some [{ path := "/var/log/auth.log" }] }

/-- Scenario A session state. -/
def stA : State :=
  { seed := [r1, r2], query := "sam", platforms := ["windows", "linux"],
    tactics := [], tools := [], selected := none }

/-- Scenario D record R3 of the spec. -/
def r3 : Artifact :=
  { id := "w2", name := "SecLog", slug := "sl", platform := "windows", summary := "xx",
    event_ids := some [{ ids := ["4624", "4625"], source := "Security",
                         description := "Logon events" }] }

/-- Scenario D session state. -/
def stD : State :=
  { seed := [r3], query := "462", platforms := platformEnum,
    tactics := [], tools := [], selected := none }

/-- A state with a record open and every filter field non-default. -/
def stOpen : State :=
  { seed := [r1, r2], query := "zz", platforms := ["windows"],
    tactics := ["persistence"], tools := ["x"], selected := some r2 }

/-! ### Helper lemmas -/

theorem contains_iff (l : List String) (x : String) : l.contains x = true ↔ x ∈ l := by
  simp

theorem contains_cons_eq (x a : String) (l : List String) :
    (a :: l).contains x = ((x == a) || l.contains x) :=
  List.contains_cons

/-- The source's filter predicate coincides with the conjunction of the
four gates, with the code's text gate. -/
theorem matchesRecord_iff (st : State) (r : Artifact) :
    matchesRecord st r = true ↔
      platformGate st r ∧ tacticGate st r ∧ toolGate st r ∧ textGateCode st r := by
  simp only [matchesRecord, platformGate, tacticGate, toolGate, textGateCode, queryKey,
    Bool.and_eq_true, Bool.or_eq_true, decide_eq_true_eq, List.any_eq_true,
    List.isEmpty_iff, List.map_eq_nil_iff, beq_iff_eq, List.length_eq_zero,
    List.elem_iff, List.contains_eq_any_beq, exists_eq_right, exists_eq_right',
    and_assoc, or_assoc]

/-! ### Claim theorems -/

/-- C1 (amended): a record appears in the output of the Query Evaluator
iff it is in the store and all four gates hold, where the text gate is
the code's: every candidate field is lowercased except the event-id
strings, which are matched against the lowercased query literally. -/
theorem evaluate_mem_iff (st : State) (r : Artifact) :
    r ∈ filtered st ↔
      r ∈ st.seed ∧ platformGate st r ∧ tacticGate st r ∧ toolGate st r ∧ textGateCode st r := by
  unfold filtered
  rw [List.mem_filter, matchesRecord_iff]

/-- C1 counterexample: with the claim's text gate — both the query and
every candidate lowercased, the event-id strings included — all four
gates hold for `rCase` under `stCase`, yet `rCase` is not in the output:
the source matches the lowercased query ab against the raw id AB. -/
theorem evaluate_mem_iff_counterexample :
    rCase ∈ stCase.seed ∧ platformGate stCase rCase ∧ tacticGate stCase rCase ∧
      toolGate stCase rCase ∧ textGateSpec stCase rCase ∧ rCase ∉ filtered stCase := by
  decide

/-- C2: with an empty `activePlatforms` the Query Evaluator returns the
empty sequence, whatever the query, tactics and tools are. -/
theorem evaluate_empty_platforms (st : State) (h : st.platforms = []) :
    filtered st = [] := by
  unfold filtered
  refine List.filter_eq_nil_iff.mpr ?_
  intro a _
  simp [matchesRecord, h]

/-- Witness for C2 at a concrete state. -/
theorem evaluate_empty_platforms_witness :
    filtered { seed := [r1, r2], query := "sam", platforms := [],
               tactics := ["persistence"], tools := ["x"], selected := none } = [] :=
  evaluate_empty_platforms _ rfl

/-- C3 counterexample: the id AB of `rCase` and the query ab differ only
in letter case — after lowercasing both, the query is a substring of the
id — yet the code's text gate rejects `rCase` and the record is filtered
out: the source never lowercases the id. -/
theorem text_gate_id_counterexample :
    queryKey stCase.query <:+: lc ("AB") ∧
      (∃ g ∈ rCase.event_ids.getD [], ("AB" : String) ∈ g.ids) ∧
      ¬ textGateCode stCase rCase ∧ rCase ∉ filtered stCase := by
  decide

/-- C3 (amended): on the event-id branch, case-insensitivity applies to
the query alone: whenever the lowercased trimmed query occurs literally
in some id string of some event-id group, the record passes the code's
text gate. -/
theorem text_gate_matches_raw_id (st : State) (r : Artifact) (g : EventIdGroup) (i : String)
    (hg : g ∈ r.event_ids.getD []) (hi : i ∈ g.ids)
    (hs : queryKey st.query <:+: i.data) : textGateCode st r := by
  unfold textGateCode
  exact Or.inr (Or.inr (Or.inr (Or.inr (Or.inr
    ⟨g, hg, Or.inr (Or.inr ⟨i, hi, hs⟩)⟩))))

/-- Witness for C3 (amended): the spec's Scenario D — query 462 against
the literal id 4624. -/
theorem text_gate_matches_raw_id_witness : textGateCode stD r3 :=
  text_gate_matches_raw_id stD r3
    { ids := ["4624", "4625"], source := "Security", description := "Logon events" }
    ("4624") (by decide) (by decide) (by decide)

/-- All records of a batch pass validation relative to the ids in
`seen`: each is well-formed, collides neither with `seen` nor with an
earlier record of the batch. -/
def goodAux (seen : List String) : List Artifact → Bool
  | [] => true
  | a :: rest => recordOk a && !(seen.contains a.id) && goodAux (a.id :: seen) rest

theorem loadAux_eq (seen : List String) (records : List Artifact) :
    loadAux seen records =
      if goodAux seen records then Except.ok records
      else Except.error InvalidRecordError.mk := by
  induction records generalizing seen with
  | nil => rfl
  | cons a rest ih =>
    unfold loadAux goodAux
    cases hok : recordOk a with
    | false => simp
    | true =>
      cases hc : seen.contains a.id with
      | true => simp
      | false =>
        rw [ih (a.id :: seen)]
        by_cases hg : goodAux (a.id :: seen) rest = true
        · simp [hg]
        · simp [hg]

theorem goodAux_iff (seen : List String) (records : List Artifact) :
    goodAux seen records = true ↔
      (∀ a ∈ records, recordOk a = true) ∧ (records.map Artifact.id).Nodup ∧
        (∀ a ∈ records, seen.contains a.id = false) := by
  induction records generalizing seen with
  | nil => simp [goodAux]
  | cons a rest ih =>
    simp only [goodAux, Bool.and_eq_true, Bool.not_eq_true', ih, List.map_cons,
      List.nodup_cons, List.mem_cons, List.mem_map]
    constructor
    · rintro ⟨⟨hok, hseen⟩, hrest, hnodup, hcons⟩
      have hne : ∀ b ∈ rest, b.id ≠ a.id := by
        intro b hb he
        have hc := hcons b hb
        rw [contains_cons_eq, he] at hc
        simp at hc
      refine ⟨?_, ⟨?_, hnodup⟩, ?_⟩
      · rintro b (rfl | hb)
        · exact hok
        · exact hrest b hb
      · rintro ⟨b, hb, he⟩
        exact hne b hb he
      · rintro b (rfl | hb)
        · exact hseen
        · have hc := hcons b hb
          rw [contains_cons_eq] at hc
          exact (Bool.or_eq_false_iff.mp hc).2
    · rintro ⟨hok, ⟨hnomem, hnodup⟩, hseen⟩
      refine ⟨⟨hok a (Or.inl rfl), hseen a (Or.inl rfl)⟩, ?_, hnodup, ?_⟩
      · intro b hb
        exact hok b (Or.inr hb)
      · intro b hb
        rw [contains_cons_eq, Bool.or_eq_false_iff]
        refine ⟨?_, hseen b (Or.inr hb)⟩
        exact beq_eq_false_iff_ne.mpr fun he => hnomem ⟨b, hb, he⟩

/-- C4: `load` rejects the whole batch with `InvalidRecordError` iff
some record lacks a non-empty id, name, slug or summary, or has a
platform outside the enumeration (`recordOk a = false`), or some id
collides with an already-loaded one (the batch ids are not pairwise
distinct); otherwise it succeeds and `all()` — the returned list — is
the records in original order, exactly as supplied. -/
theorem load_spec (records : List Artifact) :
    (load records = Except.error InvalidRecordError.mk ↔
      (∃ a ∈ records, recordOk a = false) ∨ ¬ (records.map Artifact.id).Nodup) ∧
    (load records = Except.ok records ↔
      (∀ a ∈ records, recordOk a = true) ∧ (records.map Artifact.id).Nodup) := by
  have he : load records =
      if goodAux [] records then Except.ok records
      else Except.error InvalidRecordError.mk := loadAux_eq [] records
  have hg : goodAux [] records = true ↔
      (∀ a ∈ records, recordOk a = true) ∧ (records.map Artifact.id).Nodup := by
    rw [goodAux_iff]
    simp [List.contains]
  by_cases h : goodAux [] records = true
  · rw [if_pos h] at he
    have hc := hg.mp h
    constructor
    · simp only [he]
      constructor
      · intro hfalse
        cases hfalse
      · rintro (⟨a, ha, hbad⟩ | hnd)
        · rw [hc.1 a ha] at hbad
          cases hbad
        · exact absurd hc.2 hnd
    · simp only [he, true_iff]
      exact hc
  · rw [if_neg h] at he
    have hc : ¬ ((∀ a ∈ records, recordOk a = true) ∧ (records.map Artifact.id).Nodup) :=
      fun hcontra => h (hg.mpr hcontra)
    constructor
    · simp only [he, true_iff]
      by_cases hok : ∀ a ∈ records, recordOk a = true
      · refine Or.inr fun hnd => hc ⟨hok, hnd⟩
      · push_neg at hok
        obtain ⟨a, ha, hbad⟩ := hok
        exact Or.inl ⟨a, ha, by simpa using hbad⟩
    · simp only [he]
      constructor
      · intro hfalse
        cases hfalse
      · intro hcontra
        exact absurd hcontra hc

/-- Witness for C4: a valid two-record batch loads as supplied; a batch
with a duplicated id is rejected whole. -/
theorem load_spec_witness :
    load [r1, r2] = Except.ok [r1, r2] ∧
      load [r1, r1] = Except.error InvalidRecordError.mk :=
  ⟨(load_spec [r1, r2]).2.mpr ⟨by decide, by decide⟩,
   (load_spec [r1, r1]).1.mpr (Or.inr (by decide))⟩

/-- C5 counterexample: `clearAll` — the engine's `resetAll()` — leaves
the open record in place: from `stOpen`, whose detail panel shows R2,
the reset state still has R2 open rather than `openRecordId = none`. -/
theorem clearAll_counterexample :
    (clearAll stOpen).selected = some r2 ∧ (clearAll stOpen).selected ≠ none := by
  decide

/-- C5 (amended): `clearAll` restores `queryText`, `activePlatforms`,
`activeTactics` and `activeTools` to the §3 defaults — empty query, all
four platforms, no tactic and no tool restriction — but leaves the open
record (`openRecordId`) and the store unchanged. -/
theorem clearAll_spec (st : State) :
    (clearAll st).query = "" ∧
      (clearAll st).platforms = ["windows", "linux", "m365", "gws"] ∧
      (clearAll st).tactics = [] ∧ (clearAll st).tools = [] ∧
      (clearAll st).selected = st.selected ∧ (clearAll st).seed = st.seed :=
  ⟨rfl, rfl, rfl, rfl, rfl, rfl⟩

theorem mem_uniqAux (x : String) (seen l : List String) :
    x ∈ uniqAux seen l ↔ x ∈ l ∧ x ∉ seen := by
  induction l generalizing seen with
  | nil => simp [uniqAux]
  | cons a as ih =>
    unfold uniqAux
    by_cases h : a ∈ seen
    · rw [if_pos ((contains_iff seen a).mpr h), ih, List.mem_cons]
      constructor
      · rintro ⟨hx, hs⟩
        exact ⟨Or.inr hx, hs⟩
      · rintro ⟨rfl | hx, hs⟩
        · exact absurd h hs
        · exact ⟨hx, hs⟩
    · rw [if_neg (fun hc => h ((contains_iff seen a).mp hc))]
      simp only [List.mem_cons, ih, not_or]
      by_cases hx : x = a
      · subst hx
        simp [h]
      · simp [hx]

theorem nodup_uniqAux (seen l : List String) : (uniqAux seen l).Nodup := by
  induction l generalizing seen with
  | nil => simp [uniqAux]
  | cons a as ih =>
    unfold uniqAux
    by_cases h : a ∈ seen
    · rw [if_pos ((contains_iff seen a).mpr h)]
      exact ih seen
    · rw [if_neg (fun hc => h ((contains_iff seen a).mp hc))]
      refine List.nodup_cons.mpr ⟨fun hmem => ?_, ih (a :: seen)⟩
      exact ((mem_uniqAux a (a :: seen) as).mp hmem).2 (List.mem_cons_self a seen)

theorem mem_uniq (x : String) (l : List String) : x ∈ uniq l ↔ x ∈ l := by
  simp [uniq, mem_uniqAux]

theorem nodup_uniq (l : List String) : (uniq l).Nodup := nodup_uniqAux [] l

/-- The sorted deduplication underlying both facet universes: its
members are exactly the members of the input, and it is strictly
ascending. -/
theorem sortedUniq_spec (l : List String) :
    (∀ v, v ∈ List.insertionSort (· ≤ ·) (uniq l) ↔ v ∈ l) ∧
      List.Sorted (· < ·) (List.insertionSort (· ≤ ·) (uniq l)) := by
  have hperm := List.perm_insertionSort (· ≤ ·) (uniq l)
  constructor
  · intro v
    rw [hperm.mem_iff, mem_uniq]
  · refine (List.sorted_insertionSort (· ≤ ·) (uniq l)).lt_of_le ?_
    exact hperm.nodup_iff.mpr (nodup_uniq l)

/-- C6: `allTactics` (resp. `allTools`) contains exactly the values
occurring in some record's `tactic_tags` (resp. `parsers[].tool_name`),
deduplicated and in strictly ascending lexicographic order. -/
theorem facet_universes_spec (st : State) :
    (∀ v, v ∈ allTactics st ↔ ∃ a ∈ st.seed, v ∈ a.tactic_tags.getD []) ∧
      List.Sorted (· < ·) (allTactics st) ∧
      (∀ v, v ∈ allTools st ↔ ∃ a ∈ st.seed, ∃ p ∈ a.parsers.getD [], p.tool_name = v) ∧
      List.Sorted (· < ·) (allTools st) := by
  obtain ⟨hmem1, hsort1⟩ := sortedUniq_spec (st.seed.flatMap (fun a => a.tactic_tags.getD []))
  obtain ⟨hmem2, hsort2⟩ :=
    sortedUniq_spec (st.seed.flatMap (fun a => (a.parsers.getD []).map (fun p => p.tool_name)))
  refine ⟨fun v => ?_, hsort1, fun v => ?_, hsort2⟩
  · rw [allTactics, hmem1, List.mem_flatMap]
  · rw [allTools, hmem2, List.mem_flatMap]
    simp only [List.mem_map]

/-- C7: the Query Evaluator output is a subsequence of the store in the
same relative order; in particular a store without duplicates yields an
output without duplicates. -/
theorem evaluate_sublist (st : State) :
    (filtered st).Sublist st.seed ∧ (st.seed.Nodup → (filtered st).Nodup) :=
  ⟨List.filter_sublist st.seed, fun h => h.sublist (List.filter_sublist st.seed)⟩

/-- Witness for C7 at the Scenario A state. -/
theorem evaluate_sublist_witness :
    (filtered stA).Sublist stA.seed ∧ (filtered stA).Nodup :=
  ⟨(evaluate_sublist stA).1, (evaluate_sublist stA).2 (by decide)⟩

theorem mem_toggle (l : List String) (v x : String) :
    x ∈ toggle l v ↔ ((x ∈ l ∧ x ≠ v) ∨ (x = v ∧ v ∉ l)) := by
  unfold toggle
  by_cases h : v ∈ l
  · rw [if_pos ((contains_iff l v).mpr h), List.mem_filter]
    simp only [bne_iff_ne]
    constructor
    · rintro ⟨hx, hne⟩
      exact Or.inl ⟨hx, hne⟩
    · rintro (⟨hx, hne⟩ | ⟨rfl, hv⟩)
      · exact ⟨hx, hne⟩
      · exact absurd h hv
  · rw [if_neg (fun hc => h ((contains_iff l v).mp hc)), List.mem_append,
      List.mem_singleton]
    constructor
    · rintro (hx | rfl)
      · exact Or.inl ⟨hx, fun he => h (he ▸ hx)⟩
      · exact Or.inr ⟨rfl, h⟩
    · rintro (⟨hx, _⟩ | ⟨rfl, _⟩)
      · exact Or.inl hx
      · exact Or.inr rfl

theorem mem_toggle_toggle (l : List String) (v x : String) :
    x ∈ toggle (toggle l v) v ↔ x ∈ l := by
  rw [mem_toggle, mem_toggle, mem_toggle]
  by_cases hx : x = v <;> by_cases hv : v ∈ l <;> simp [hx, hv]

/-- C8: each of the three toggles is a symmetric set-membership flip —
the toggled value leaves the active set if present and joins it if
absent, all other members unaffected — and toggling the same value
twice restores the active set (as a set of members). -/
theorem toggle_flip_spec (st : State) (v x : String) :
    (x ∈ (togglePlatform st v).platforms ↔
      ((x ∈ st.platforms ∧ x ≠ v) ∨ (x = v ∧ v ∉ st.platforms))) ∧
    (x ∈ (togglePlatform (togglePlatform st v) v).platforms ↔ x ∈ st.platforms) ∧
    (x ∈ (toggleTactic st v).tactics ↔
      ((x ∈ st.tactics ∧ x ≠ v) ∨ (x = v ∧ v ∉ st.tactics))) ∧
    (x ∈ (toggleTactic (toggleTactic st v) v).tactics ↔ x ∈ st.tactics) ∧
    (x ∈ (toggleTool st v).tools ↔
      ((x ∈ st.tools ∧ x ≠ v) ∨ (x = v ∧ v ∉ st.tools))) ∧
    (x ∈ (toggleTool (toggleTool st v) v).tools ↔ x ∈ st.tools) :=
  ⟨mem_toggle st.platforms v x, mem_toggle_toggle st.platforms v x,
   mem_toggle st.tactics v x, mem_toggle_toggle st.tactics v x,
   mem_toggle st.tools v x, mem_toggle_toggle st.tools v x⟩

theorem find_id_eq (seed : List Artifact) (i : String) (r : Artifact)
    (hnd : (seed.map Artifact.id).Nodup) (hr : r ∈ seed) (hid : r.id = i) :
    seed.find? (fun a => a.id == i) = some r := by
  induction seed with
  | nil => cases hr
  | cons a rest ih =>
    rw [List.map_cons, List.nodup_cons] at hnd
    rcases List.mem_cons.mp hr with rfl | hr2
    · exact List.find?_cons_of_pos rest (by simp [hid])
    · have hne : ¬ (a.id == i) = true := by
        simp only [beq_iff_eq]
        intro he
        exact hnd.1 (he ▸ hid ▸ List.mem_map_of_mem Artifact.id hr2)
      rw [List.find?_cons_of_neg rest hne]
      exact ih hnd.2 hr2

/-- C9: opening a present id succeeds — no error, and `current()` then
returns the exact record bearing that id — while opening an absent id
signals `NotFoundError` and leaves the state, in particular the open
record, unchanged. -/
theorem open_round_trip :
    (∀ (st : State) (i : String) (r : Artifact),
        (st.seed.map Artifact.id).Nodup → r ∈ st.seed → r.id = i →
        openRecord st i = ({ st with selected := some r }, none) ∧
          current (openRecord st i).1 = some r) ∧
    (∀ (st : State) (i : String),
        (∀ r ∈ st.seed, r.id ≠ i) →
        openRecord st i = (st, some { id := i }) ∧
          current (openRecord st i).1 = current st) := by
  constructor
  · intro st i r hnd hr hid
    have hf := find_id_eq st.seed i r hnd hr hid
    constructor
    · unfold openRecord
      rw [hf]
    · unfold current openRecord
      rw [hf]
  · intro st i hne
    have hf : st.seed.find? (fun a => a.id == i) = none := by
      rw [List.find?_eq_none]
      intro a ha
      simp only [beq_iff_eq]
      exact hne a ha
    constructor
    · unfold openRecord
      rw [hf]
    · unfold current openRecord
      rw [hf]

/-- Witness for C9: in the Scenario A store, opening w1 yields R1 open,
and opening an unknown id returns the state unchanged with the error. -/
theorem open_round_trip_witness :
    openRecord stA ("w1") = ({ stA with selected := some r1 }, none) ∧
      openRecord stA ("zzz") = (stA, some { id := "zzz" }) :=
  ⟨(open_round_trip.1 stA ("w1") r1 (by decide) (by decide) (by decide)).1,
   (open_round_trip.2 stA ("zzz") (by decide)).1⟩

/-- C10: the facet universes read only the record collection: two
session states over the same store — whatever their query text, active
platforms, tactics, tools and open record — have identical `allTactics`
and `allTools`. -/
theorem facet_universes_ignore_filters (st1 st2 : State) (h : st1.seed = st2.seed) :
    allTactics st1 = allTactics st2 ∧ allTools st1 = allTools st2 := by
  unfold allTactics allTools
  rw [h]
  exact ⟨rfl, rfl⟩

/-- Witness for C10: the Scenario A state and a state with different
query, facets and open record over the same seed. -/
theorem facet_universes_ignore_filters_witness :
    allTactics stA = allTactics stOpen ∧ allTools stA = allTools stOpen :=
  facet_universes_ignore_filters stA stOpen rfl

end ArtifactExplorer
